import Mathlib

/-!
Shallow embedding of the invoice aggregation engine of `src/main.py`
(an invoice analysis dashboard over pandas DataFrames).

Numbers that the source handles as JSON decimals / Python floats are
modelled as exact rationals (`ℚ`); calendar dates as a `Date` structure;
the pandas DataFrame as a `List` of rows.  Fallible Python code (loops
that can raise, `pd.to_datetime`) is modelled with `Except`/`Option`.
-/

/-- A JSON scalar as it can appear in a property `amount` field: either a
number or (in a malformed document) a non-numeric value such as a string. -/
inductive JVal where
  | num (q : ℚ)
  | str (s : String)
deriving DecidableEq

/-- One entry of a record's `properties` array (`src/main.py` lines 37-38
reads `prop["amount"]` and counts the entries). -/
structure InvoiceProperty where
  propertyId : String
  amount : JVal
deriving DecidableEq

/-- A raw invoice entry of the input JSON document, with the fields read by
`process_invoices` (`src/main.py` lines 29-39).  `invoiceDate` is still the
raw string at this stage; `invoiceGross` is a JSON decimal. -/
structure RawRecord where
  category : String
  heading : String
  internalReference : String
  invoiceDate : String
  invoiceGross : ℚ
  supplierInvoice : String
  supplierName : String
  properties : List InvoiceProperty
deriving DecidableEq

/-- A calendar date, as produced by `pd.to_datetime` on an ISO-8601 date
string (`src/main.py` line 42). -/
structure Date where
  year : ℕ
  month : ℕ
  day : ℕ
deriving DecidableEq

/-- Order-isomorphic numeric key for a calendar date (month ≤ 12 and
day ≤ 31, so the encoding is ordered exactly like the date). -/
def Date.key (d : Date) : ℕ := d.year * 10000 + d.month * 100 + d.day

/-- Date comparison at calendar-date granularity, as in the filter
`df["invoiceDate"].dt.date >= start_date` (`src/main.py` lines 71-72). -/
def dateLe (a b : Date) : Bool := decide (a.key ≤ b.key)

/-- Split a character list at every dash, as needed to read the fields of
an ISO-8601 date string. -/
def splitDash : List Char → List (List Char)
  | [] => [[]]
  | c :: cs =>
    let r := splitDash cs
    if c = '-' then [] :: r
    else
      match r with
      | [] => [[c]]
      | g :: gs => (c :: g) :: gs

/-- Numeric value of a digit list (used only on all-digit lists). -/
def digitsToNat (cs : List Char) : ℕ :=
  cs.foldl (fun n c => 10 * n + (c.toNat - 48)) 0

/-- Read a non-empty all-digit character list as a natural number. -/
def readNat (cs : List Char) : Option ℕ :=
  if cs.isEmpty then none
  else if cs.all Char.isDigit then some (digitsToNat cs) else none

/-- Gregorian leap-year rule. -/
def isLeapYear (y : ℕ) : Bool :=
  (y % 4 == 0 && y % 100 != 0) || (y % 400 == 0)

/-- Days of a month in the Gregorian calendar. -/
def daysInMonth (y m : ℕ) : ℕ :=
  if m = 2 then (if isLeapYear y then 29 else 28)
  else if m = 4 ∨ m = 6 ∨ m = 9 ∨ m = 11 then 30
  else 31

/-- Parse a calendar date, modelling `pd.to_datetime` (`src/main.py`
line 42) on the ISO-8601 `YYYY-MM-DD` strings that the input interface
supplies: three dash-separated digit fields, month 1-12, day within the
month.  Anything else fails to parse, which in the source raises. -/
def parseDate (s : String) : Option Date :=
  match splitDash s.data with
  | [ys, ms, ds] => do
    let y ← readNat ys
    let m ← readNat ms
    let d ← readNat ds
    if 1 ≤ m ∧ m ≤ 12 ∧ 1 ≤ d ∧ d ≤ daysInMonth y m then some ⟨y, m, d⟩ else none
  | _ => none

/-- The Python exceptions that `process_invoices` can let escape:
a `TypeError` from summing a non-numeric property amount (the message
carries only the operand types, no value and no record identifier), and a
pandas date-parse failure (whose message carries the unparseable value,
and no record identifier). -/
inductive PyError where
  | typeError
  | dateParseError (badValue : String)
deriving DecidableEq

/-- `sum(prop["amount"] for prop in invoice["properties"])`
(`src/main.py` line 37): 0 on the empty sequence, a `TypeError` as soon as
a non-numeric amount is added. -/
def numericSum : List JVal → Except PyError ℚ
  | [] => .ok 0
  | .num q :: rest =>
    match numericSum rest with
    | .error e => .error e
    | .ok s => .ok (q + s)
  | .str _ :: _ => .error .typeError

/-- The flat dictionary built for one invoice inside the loop of
`process_invoices` (`src/main.py` lines 29-39); the date is still the raw
string, exactly as in the source before the `pd.to_datetime` call. -/
structure PreRow where
  category : String
  heading : String
  internalReference : String
  invoiceDate : String
  invoiceGross : ℚ
  supplierInvoice : String
  supplierName : String
  propertyAmount : ℚ
  propertyCount : ℕ
deriving DecidableEq

/-- A fully normalized row of the DataFrame returned by `process_invoices`
(`src/main.py` lines 41-46): parsed date plus the derived `year`, `month`
and `yearMonth` columns. -/
structure NormalizedRow where
  category : String
  heading : String
  internalReference : String
  invoiceDate : Date
  invoiceGross : ℚ
  supplierInvoice : String
  supplierName : String
  propertyAmount : ℚ
  propertyCount : ℕ
  year : ℕ
  month : ℕ
  yearMonth : String
deriving DecidableEq

/-- Decimal digit character. -/
def digitChar (n : ℕ) : Char := Char.ofNat (48 + n)

/-- Decimal digits of a natural number, fuel-driven so that it reduces in
the kernel. -/
def natToChars : ℕ → ℕ → List Char
  | 0, _ => []
  | fuel + 1, n =>
    if n < 10 then [digitChar n] else natToChars fuel (n / 10) ++ [digitChar (n % 10)]

/-- Decimal string of a natural number. -/
def natToStr (n : ℕ) : String := ⟨natToChars (n + 1) n⟩

/-- Zero-padded two-digit month field. -/
def pad2 (n : ℕ) : String := if n < 10 then "0" ++ natToStr n else natToStr n

/-- The `yearMonth` bucket `df["invoiceDate"].dt.to_period("M").astype(str)`
(`src/main.py` line 45): the exact string `YYYY-MM` with zero-padded
month. -/
def yearMonthStr (d : Date) : String := natToStr d.year ++ "-" ++ pad2 d.month

/-- One step of the loop of `process_invoices` (`src/main.py` lines 29-39):
build the flat dictionary of one invoice, propagating the `TypeError` a
non-numeric property amount raises. -/
def buildRow (rec : RawRecord) : Except PyError PreRow :=
  match numericSum (rec.properties.map InvoiceProperty.amount) with
  | .error e => .error e
  | .ok pa =>
    .ok { category := rec.category
          heading := rec.heading
          internalReference := rec.internalReference
          invoiceDate := rec.invoiceDate
          invoiceGross := rec.invoiceGross
          supplierInvoice := rec.supplierInvoice
          supplierName := rec.supplierName
          propertyAmount := pa
          propertyCount := rec.properties.length }

/-- The whole loop of `process_invoices` (`src/main.py` lines 27-39): the
rows in input order, or the first exception raised. -/
def buildInvoices : List RawRecord → Except PyError (List PreRow)
  | [] => .ok []
  | rec :: rest =>
    match buildRow rec with
    | .error e => .error e
    | .ok p =>
      match buildInvoices rest with
      | .error e => .error e
      | .ok ps => .ok (p :: ps)

/-- Date-parsing and derived-column stage of `process_invoices`
(`src/main.py` lines 42-45): `pd.to_datetime` over the `invoiceDate`
column (failing at the first unparseable value, with that value in the
error), then the `year`, `month` and `yearMonth` columns. -/
def parseDates : List PreRow → Except PyError (List NormalizedRow)
  | [] => .ok []
  | p :: ps =>
    match parseDate p.invoiceDate with
    | none => .error (.dateParseError p.invoiceDate)
    | some d =>
      match parseDates ps with
      | .error e => .error e
      | .ok rs =>
        .ok ({ category := p.category
               heading := p.heading
               internalReference := p.internalReference
               invoiceDate := d
               invoiceGross := p.invoiceGross
               supplierInvoice := p.supplierInvoice
               supplierName := p.supplierName
               propertyAmount := p.propertyAmount
               propertyCount := p.propertyCount
               year := d.year
               month := d.month
               yearMonth := yearMonthStr d } :: rs)

/-- `process_invoices` (`src/main.py` lines 26-46): flatten the raw
records, then parse the date column and derive the time buckets.  Any
exception aborts the whole load; no partial dataset is produced. -/
def process_invoices (recs : List RawRecord) : Except PyError (List NormalizedRow) :=
  match buildInvoices recs with
  | .error e => .error e
  | .ok ps => parseDates ps

/-- The sidebar filter state: the tuple returned by the date-range widget
(any length), and the category / supplier selections where `"All"` is the
wildcard (`src/main.py` lines 62-86). -/
structure FilterCriteria where
  dateRange : List Date
  category : String
  supplier : String
deriving DecidableEq

/-- The date-range filter (`src/main.py` lines 69-74): applied only when
the widget supplied exactly two values, otherwise the DataFrame is left
unfiltered. -/
def dateRangeStep (c : FilterCriteria) (rows : List NormalizedRow) : List NormalizedRow :=
  match c.dateRange with
  | [s, e] => rows.filter fun r => dateLe s r.invoiceDate && dateLe r.invoiceDate e
  | _ => rows

/-- The category filter (`src/main.py` lines 79-80): exact match unless
the wildcard `"All"` is selected. -/
def categoryStep (c : FilterCriteria) (rows : List NormalizedRow) : List NormalizedRow :=
  if c.category = "All" then rows
  else rows.filter fun r => decide (r.category = c.category)

/-- The supplier filter (`src/main.py` lines 85-86): exact match unless
the wildcard `"All"` is selected. -/
def supplierStep (c : FilterCriteria) (rows : List NormalizedRow) : List NormalizedRow :=
  if c.supplier = "All" then rows
  else rows.filter fun r => decide (r.supplierName = c.supplier)

/-- The full filter pipeline of `main` (`src/main.py` lines 69-86): date
range, then category, then supplier. -/
def applyFilters (c : FilterCriteria) (rows : List NormalizedRow) : List NormalizedRow :=
  supplierStep c (categoryStep c (dateRangeStep c rows))

/-- Predicate form of the date-range step. -/
def datePred (c : FilterCriteria) (r : NormalizedRow) : Bool :=
  match c.dateRange with
  | [s, e] => dateLe s r.invoiceDate && dateLe r.invoiceDate e
  | _ => true

/-- Predicate form of the category step. -/
def categoryPred (c : FilterCriteria) (r : NormalizedRow) : Bool :=
  if c.category = "All" then true else decide (r.category = c.category)

/-- Predicate form of the supplier step. -/
def supplierPred (c : FilterCriteria) (r : NormalizedRow) : Bool :=
  if c.supplier = "All" then true else decide (r.supplierName = c.supplier)

/-- `df_filtered.groupby(key)[col].sum()`: one `(key, sum)` pair per
distinct key, the sum ranging over the rows carrying that key.  pandas
enumerates group keys in sorted order; this model enumerates them in
first-occurrence order — every property proved about it depends only on
which pairs are present, not on their enumeration order. -/
def groupSum {α κ : Type} [DecidableEq κ] (key : α → κ) (val : α → ℚ)
    (rows : List α) : List (κ × ℚ) :=
  ((rows.map key).dedup).map fun k =>
    (k, ((rows.filter fun r => decide (key r = k)).map val).sum)

/-- Comparator of `sort_values(ascending=False)` on a summed column:
larger sums first. -/
def byDescSum {κ : Type} (a b : κ × ℚ) : Bool := decide (b.2 ≤ a.2)

/-- `category_totals` (`src/main.py` line 109): spending grouped by
category, sorted descending by total. -/
def category_totals (rows : List NormalizedRow) : List (String × ℚ) :=
  (groupSum NormalizedRow.category NormalizedRow.invoiceGross rows).mergeSort byDescSum

/-- `top_categories` (`src/main.py` line 157): the (up to) five categories
with the largest totals over the entire filtered set. -/
def top_categories (rows : List NormalizedRow) : List String :=
  ((category_totals rows).take 5).map Prod.fst

/-- `category_monthly` (`src/main.py` line 152): spending grouped by
`(yearMonth, category)`. -/
def category_monthly (rows : List NormalizedRow) : List ((String × String) × ℚ) :=
  groupSum (fun r => (r.yearMonth, r.category)) NormalizedRow.invoiceGross rows

/-- `category_monthly_filtered` (`src/main.py` line 158): the monthly
breakdown restricted to the top-5 categories. -/
def category_monthly_filtered (rows : List NormalizedRow) : List ((String × String) × ℚ) :=
  (category_monthly rows).filter fun e => (top_categories rows).contains e.1.2

/-- `total_invoices = len(df_filtered)` (`src/main.py` line 92). -/
def total_invoices (rows : List NormalizedRow) : ℕ := rows.length

/-- `total_amount = df_filtered["invoiceGross"].sum()` (`src/main.py`
line 93); pandas sums an empty column to 0. -/
def total_amount (rows : List NormalizedRow) : ℚ :=
  (rows.map NormalizedRow.invoiceGross).sum

/-- `avg_invoice = df_filtered["invoiceGross"].mean()` (`src/main.py`
line 94); pandas yields `NaN` on an empty column, modelled as `none`. -/
def avg_invoice (rows : List NormalizedRow) : Option ℚ :=
  if rows.length = 0 then none else some (total_amount rows / rows.length)

/-- `unique_suppliers = df_filtered["supplierName"].nunique()`
(`src/main.py` line 95). -/
def unique_suppliers (rows : List NormalizedRow) : ℕ :=
  (rows.map NormalizedRow.supplierName).dedup.length

/-- `total_pages = (total_rows - 1) // rows_per_page + 1` (`src/main.py`
line 228).  Python `//` is flooring division, so the subtraction is over
the integers and `total_rows = 0` floors through `-1`. -/
def total_pages (total_rows rows_per_page : ℕ) : ℤ :=
  ((total_rows : ℤ) - 1).fdiv (rows_per_page : ℤ) + 1

/-- Modelled from the spec: `total_pages = ceil(total_rows / page_size)
with a minimum of 1 page even when total_rows is 0`.  This is the
formula the spec states for the pagination step, written with the
standard `(n + p - 1) / p` natural-number ceiling; it is compared with
the source formula `total_pages`. -/
def specTotalPages (total_rows page_size : ℕ) : ℕ :=
  max 1 ((total_rows + page_size - 1) / page_size)

/-- Modelled from the spec: the date-range filter in which a supplied
bound constrains and `a missing bound is treated as unconstrained`
(inclusive, calendar-date granularity); it is compared with the source
behaviour `dateRangeStep` on one-bound ranges. -/
def specDateFilter (lo hi : Option Date) (rows : List NormalizedRow) : List NormalizedRow :=
  rows.filter fun r =>
    (match lo with
     | some s => dateLe s r.invoiceDate
     | none => true) &&
    (match hi with
     | some e => dateLe r.invoiceDate e
     | none => true)

/-- Pointwise correspondence stated by the normalization contract between
a raw record and its normalized row. -/
def recOk (rec : RawRecord) (row : NormalizedRow) : Prop :=
  numericSum (rec.properties.map InvoiceProperty.amount) = .ok row.propertyAmount
  ∧ row.propertyCount = rec.properties.length
  ∧ (rec.properties = [] → row.propertyAmount = 0 ∧ row.propertyCount = 0)
  ∧ row.category = rec.category
  ∧ row.heading = rec.heading
  ∧ row.internalReference = rec.internalReference
  ∧ row.invoiceGross = rec.invoiceGross
  ∧ row.supplierInvoice = rec.supplierInvoice
  ∧ row.supplierName = rec.supplierName

/-- Pointwise correspondence through the flattening loop. -/
def preOk (rec : RawRecord) (p : PreRow) : Prop :=
  numericSum (rec.properties.map InvoiceProperty.amount) = .ok p.propertyAmount
  ∧ p.propertyCount = rec.properties.length
  ∧ p.category = rec.category
  ∧ p.heading = rec.heading
  ∧ p.internalReference = rec.internalReference
  ∧ p.invoiceDate = rec.invoiceDate
  ∧ p.invoiceGross = rec.invoiceGross
  ∧ p.supplierInvoice = rec.supplierInvoice
  ∧ p.supplierName = rec.supplierName

/-- Pointwise correspondence through the date-parsing stage. -/
def rowOfPre (p : PreRow) (row : NormalizedRow) : Prop :=
  parseDate p.invoiceDate = some row.invoiceDate
  ∧ row.propertyAmount = p.propertyAmount
  ∧ row.propertyCount = p.propertyCount
  ∧ row.category = p.category
  ∧ row.heading = p.heading
  ∧ row.internalReference = p.internalReference
  ∧ row.invoiceGross = p.invoiceGross
  ∧ row.supplierInvoice = p.supplierInvoice
  ∧ row.supplierName = p.supplierName

/-- A well-formed sample raw record (empty properties array). -/
def sampleRecord : RawRecord :=
  { category := "Repairs"
    heading := "Roof works"
    internalReference := "INV-1"
    invoiceDate := "2024-01-10"
    invoiceGross := 100
    supplierInvoice := "S-1"
    supplierName := "Alpha"
    properties := [] }

/-- The normalized row `process_invoices` produces for `sampleRecord`. -/
def sampleRow : NormalizedRow :=
  { category := "Repairs"
    heading := "Roof works"
    internalReference := "INV-1"
    invoiceDate := ⟨2024, 1, 10⟩
    invoiceGross := 100
    supplierInvoice := "S-1"
    supplierName := "Alpha"
    propertyAmount := 0
    propertyCount := 0
    year := 2024
    month := 1
    yearMonth := "2024-01" }

/-- Record with an unparseable date, identifier `INV-A`. -/
def badDateRecordA : RawRecord :=
  { sampleRecord with internalReference := "INV-A", invoiceDate := "garbage" }

/-- Record with the same unparseable date, identifier `INV-B`. -/
def badDateRecordB : RawRecord :=
  { sampleRecord with internalReference := "INV-B", invoiceDate := "garbage" }

/-- Record with a non-numeric property amount, identifier `INV-C`. -/
def badAmountRecordC : RawRecord :=
  { sampleRecord with
      internalReference := "INV-C"
      properties := [⟨"P1", JVal.str "oops"⟩] }

/-- Record with the same non-numeric property amount, identifier `INV-D`. -/
def badAmountRecordD : RawRecord :=
  { sampleRecord with
      internalReference := "INV-D"
      properties := [⟨"P1", JVal.str "oops"⟩] }

/-- A one-bound (start only) date-range request. -/
def oneBoundCriteria : FilterCriteria :=
  { dateRange := [⟨2024, 6, 1⟩], category := "All", supplier := "All" }

/-! ### Generic list lemmas -/

/-- Splitting a sum along a filter and its complement. -/
theorem sumFilterSplit {α : Type} (p : α → Bool) (f : α → ℚ) (l : List α) :
    ((l.filter p).map f).sum + ((l.filter fun r => !(p r)).map f).sum = (l.map f).sum := by
  have hperm := (List.filter_append_perm p l).map f
  have hs := hperm.sum_eq
  simpa [List.map_append, List.sum_append] using hs

/-- Summing group sums over a duplicate-free key list that covers every
element recovers the total sum. -/
theorem sumOverKeys {α κ : Type} [DecidableEq κ] (key : α → κ) (f : α → ℚ) :
    ∀ ks : List κ, ks.Nodup → ∀ l : List α, (∀ r ∈ l, key r ∈ ks) →
      (ks.map fun k => ((l.filter fun r => decide (key r = k)).map f).sum).sum
        = (l.map f).sum := by
  intro ks
  induction ks with
  | nil =>
    intro _ l hl
    cases l with
    | nil => simp
    | cons a t => exact absurd (hl a (by simp)) (by simp)
  | cons k ks ih =>
    intro hnd l hl
    rw [List.nodup_cons] at hnd
    obtain ⟨hk, hnd⟩ := hnd
    have hmem2 : ∀ r ∈ l.filter fun r => !(decide (key r = k)), key r ∈ ks := by
      intro r hr
      rw [List.mem_filter] at hr
      obtain ⟨hrl, hrk⟩ := hr
      have hin := hl r hrl
      simp only [Bool.not_eq_true', decide_eq_false_iff_not] at hrk
      rcases List.mem_cons.mp hin with h | h
      · exact absurd h hrk
      · exact h
    have hswap : ∀ k' ∈ ks, (l.filter fun r => decide (key r = k'))
        = ((l.filter fun r => !(decide (key r = k))).filter fun r => decide (key r = k')) := by
      intro k' hk'
      rw [List.filter_filter]
      refine List.filter_congr ?_
      intro a _
      have hkk : k ≠ k' := fun he => hk (he ▸ hk')
      by_cases hak : key a = k'
      · have hneq : key a ≠ k := by
          intro he
          exact hkk (by rw [← he]; exact hak)
        simp [hak, hneq, Ne.symm hkk]
      · simp [hak]
    have hcongr : (ks.map fun k' => ((l.filter fun r => decide (key r = k')).map f).sum)
        = ks.map fun k' =>
            (((l.filter fun r => !(decide (key r = k))).filter fun r => decide (key r = k')).map f).sum :=
      List.map_congr_left fun k' hk' => by rw [hswap k' hk']
    calc ((k :: ks).map fun k' => ((l.filter fun r => decide (key r = k')).map f).sum).sum
        = ((l.filter fun r => decide (key r = k)).map f).sum
            + (ks.map fun k' => ((l.filter fun r => decide (key r = k')).map f).sum).sum := by
          simp
      _ = ((l.filter fun r => decide (key r = k)).map f).sum
            + ((l.filter fun r => !(decide (key r = k))).map f).sum := by
          rw [hcongr, ih hnd _ hmem2]
      _ = (l.map f).sum := sumFilterSplit (fun r => decide (key r = k)) f l

/-! ### Filter steps as list filters -/

/-- The date-range step filters by `datePred`. -/
theorem dateRangeStep_eq_filter (c : FilterCriteria) (rows : List NormalizedRow) :
    dateRangeStep c rows = rows.filter (datePred c) := by
  obtain ⟨dr, cat, sup⟩ := c
  unfold dateRangeStep datePred
  rcases dr with _ | ⟨s, _ | ⟨e, _ | ⟨x, xs⟩⟩⟩ <;> simp

/-- The category step filters by `categoryPred`. -/
theorem categoryStep_eq_filter (c : FilterCriteria) (rows : List NormalizedRow) :
    categoryStep c rows = rows.filter (categoryPred c) := by
  unfold categoryStep categoryPred
  by_cases h : c.category = "All" <;> simp [h]

/-- The supplier step filters by `supplierPred`. -/
theorem supplierStep_eq_filter (c : FilterCriteria) (rows : List NormalizedRow) :
    supplierStep c rows = rows.filter (supplierPred c) := by
  unfold supplierStep supplierPred
  by_cases h : c.supplier = "All" <;> simp [h]

/-- C5: for every filtered row set, the sum of the per-category totals
produced by the category-totals aggregation equals the sum of
`invoiceGross` over the whole filtered set (exact rational arithmetic). -/
theorem claim_C5_category_totals_sum (rows : List NormalizedRow) :
    ((category_totals rows).map Prod.snd).sum = total_amount rows := by
  unfold category_totals
  have hperm :=
    ((List.mergeSort_perm
      (groupSum NormalizedRow.category NormalizedRow.invoiceGross rows) byDescSum).map
        Prod.snd).sum_eq
  rw [hperm]
  unfold groupSum total_amount
  rw [List.map_map]
  exact sumOverKeys NormalizedRow.category NormalizedRow.invoiceGross _
    (List.nodup_dedup _) rows
    (fun r hr => List.mem_dedup.mpr (List.mem_map_of_mem _ hr))

/-- C6: applying the filter pipeline twice with the same criteria yields
the same set as applying it once, and applying the three individual
criteria (date range, category, supplier) in any of the six orders yields
the same result as the pipeline's own order. -/
theorem claim_C6_filter_idempotent_commutative (c : FilterCriteria) (rows : List NormalizedRow) :
    applyFilters c (applyFilters c rows) = applyFilters c rows
    ∧ categoryStep c (supplierStep c (dateRangeStep c rows)) = applyFilters c rows
    ∧ supplierStep c (dateRangeStep c (categoryStep c rows)) = applyFilters c rows
    ∧ dateRangeStep c (supplierStep c (categoryStep c rows)) = applyFilters c rows
    ∧ categoryStep c (dateRangeStep c (supplierStep c rows)) = applyFilters c rows
    ∧ dateRangeStep c (categoryStep c (supplierStep c rows)) = applyFilters c rows := by
  refine ⟨?_, ?_, ?_, ?_, ?_, ?_⟩ <;>
  · simp only [applyFilters, dateRangeStep_eq_filter, categoryStep_eq_filter,
      supplierStep_eq_filter, List.filter_filter]
    refine List.filter_congr ?_
    intro r _
    cases hd : datePred c r <;> cases hc : categoryPred c r <;> cases hs : supplierPred c r <;>
      simp [hd, hc, hs]

/-- C10: each filter step and the whole filter pipeline return a
subsequence of their input row set — surviving rows are the input rows
themselves, in their original relative order. -/
theorem claim_C10_filter_sublist (c : FilterCriteria) (rows : List NormalizedRow) :
    (dateRangeStep c rows).Sublist rows
    ∧ (categoryStep c rows).Sublist rows
    ∧ (supplierStep c rows).Sublist rows
    ∧ (applyFilters c rows).Sublist rows := by
  refine ⟨?_, ?_, ?_, ?_⟩ <;>
    simp only [applyFilters, dateRangeStep_eq_filter, categoryStep_eq_filter,
      supplierStep_eq_filter]
  · exact List.filter_sublist _
  · exact List.filter_sublist _
  · exact List.filter_sublist _
  · exact (List.filter_sublist _).trans ((List.filter_sublist _).trans (List.filter_sublist _))

/-! ### Sortedness of the ranked category totals -/

/-- The descending-by-sum comparator is transitive. -/
theorem byDescSum_trans {κ : Type} (a b c : κ × ℚ) (h1 : byDescSum a b = true)
    (h2 : byDescSum b c = true) : byDescSum a c = true := by
  unfold byDescSum at *
  simp only [decide_eq_true_eq] at *
  exact le_trans h2 h1

/-- The descending-by-sum comparator is total. -/
theorem byDescSum_total {κ : Type} (a b : κ × ℚ) : (byDescSum a b || byDescSum b a) = true := by
  unfold byDescSum
  simp [le_total]

/-- `category_totals` is sorted with larger sums first. -/
theorem category_totals_sorted (rows : List NormalizedRow) :
    List.Sorted (fun a b : String × ℚ => b.2 ≤ a.2) (category_totals rows) := by
  unfold category_totals
  have h := List.sorted_mergeSort byDescSum_trans byDescSum_total
    (groupSum NormalizedRow.category NormalizedRow.invoiceGross rows)
  refine h.imp ?_
  intro a b hab
  simpa [byDescSum] using hab

/-- C8: the top-5 monthly-breakdown view picks `min 5 #categories`
categories whose totals over the entire filtered set dominate every
non-selected category's total, keeps exactly the `(yearMonth, category)`
sums of the selected categories, and every category of the filtered set —
selected or not — stays present in the category-totals aggregation. -/
theorem claim_C8_top5_breakdown (rows : List NormalizedRow) :
    (top_categories rows).length = min 5 ((rows.map NormalizedRow.category).dedup).length
    ∧ (∀ p ∈ (category_totals rows).take 5, ∀ q ∈ (category_totals rows).drop 5, q.2 ≤ p.2)
    ∧ (∀ e, e ∈ category_monthly_filtered rows ↔
        e ∈ category_monthly rows ∧ e.1.2 ∈ top_categories rows)
    ∧ (∀ r ∈ rows, ∃ q ∈ category_totals rows, q.1 = r.category) := by
  refine ⟨?_, ?_, ?_, ?_⟩
  · have hlen : (category_totals rows).length
        = ((rows.map NormalizedRow.category).dedup).length := by
      unfold category_totals
      rw [(List.mergeSort_perm _ _).length_eq]
      unfold groupSum
      rw [List.length_map]
    simp [top_categories, List.length_take, hlen]
  · intro p hp q hq
    exact (category_totals_sorted rows).rel_of_mem_take_of_mem_drop hp hq
  · intro e
    simp [category_monthly_filtered, List.mem_filter]
  · intro r hr
    have hmem : (r.category,
        ((rows.filter fun x => decide (x.category = r.category)).map
          NormalizedRow.invoiceGross).sum)
        ∈ groupSum NormalizedRow.category NormalizedRow.invoiceGross rows := by
      unfold groupSum
      exact List.mem_map_of_mem _ (List.mem_dedup.mpr (List.mem_map_of_mem _ hr))
    refine ⟨(r.category,
        ((rows.filter fun x => decide (x.category = r.category)).map
          NormalizedRow.invoiceGross).sum), ?_, rfl⟩
    unfold category_totals
    exact ((List.mergeSort_perm _ _).mem_iff).mpr hmem

/-- Witness for C8: the inner membership hypotheses discharged on a
concrete singleton row set. -/
theorem claim_C8_witness :
    ∃ q ∈ category_totals [sampleRow], q.1 = sampleRow.category :=
  (claim_C8_top5_breakdown [sampleRow]).2.2.2 sampleRow (by simp)

/-- C9: when the filtered row set is empty, the key metrics degrade to
count 0, total 0, an absent mean (pandas `NaN`, modelled `none`, not 0 and
not an error), and 0 distinct suppliers; `avg_invoice` is a total
function, so no division-by-zero fault occurs. -/
theorem claim_C9_empty_metrics (c : FilterCriteria) (df : List NormalizedRow)
    (h : applyFilters c df = []) :
    total_invoices (applyFilters c df) = 0
    ∧ total_amount (applyFilters c df) = 0
    ∧ avg_invoice (applyFilters c df) = none
    ∧ unique_suppliers (applyFilters c df) = 0 := by
  rw [h]
  exact ⟨rfl, rfl, rfl, rfl⟩

/-- Witness for C9 at a concrete empty DataFrame. -/
theorem claim_C9_witness :
    total_invoices (applyFilters oneBoundCriteria []) = 0
    ∧ total_amount (applyFilters oneBoundCriteria []) = 0
    ∧ avg_invoice (applyFilters oneBoundCriteria []) = none
    ∧ unique_suppliers (applyFilters oneBoundCriteria []) = 0 :=
  claim_C9_empty_metrics oneBoundCriteria [] rfl

/-- C4 (amended): with exactly two bounds the date-range filter keeps
exactly the rows within the inclusive bounds at calendar-date
granularity; with any other number of supplied bound values — zero, one,
or more than two — the filter is skipped entirely and the unfiltered set
is returned (a single supplied bound is not applied). -/
theorem claim_C4_amended (c : FilterCriteria) (rows : List NormalizedRow) :
    (∀ s e, c.dateRange = [s, e] →
      dateRangeStep c rows
        = rows.filter fun r => dateLe s r.invoiceDate && dateLe r.invoiceDate e)
    ∧ (c.dateRange.length ≠ 2 → dateRangeStep c rows = rows) := by
  constructor
  · intro s e h
    unfold dateRangeStep
    rw [h]
  · intro h
    unfold dateRangeStep
    rcases hdr : c.dateRange with _ | ⟨s, _ | ⟨e, _ | ⟨x, xs⟩⟩⟩
    · rfl
    · rfl
    · rw [hdr] at h
      exact absurd rfl h
    · rfl

/-- Counterexample for C4 as stated: with the single (start) bound
2024-06-01 supplied, the source keeps a row dated 2024-01-10 that the
claimed open-range semantics would exclude. -/
theorem claim_C4_counterexample :
    dateRangeStep oneBoundCriteria [sampleRow] = [sampleRow]
    ∧ specDateFilter (some ⟨2024, 6, 1⟩) none [sampleRow] = []
    ∧ dateLe ⟨2024, 6, 1⟩ sampleRow.invoiceDate = false := by
  decide

/-- Witness for C4 (amended) at a concrete one-bound request. -/
theorem claim_C4_witness :
    dateRangeStep oneBoundCriteria [sampleRow] = [sampleRow] :=
  (claim_C4_amended oneBoundCriteria [sampleRow]).2 (by decide)

/-- `Int.fdiv` of natural-number casts is natural-number division. -/
theorem fdiv_cast (m k : ℕ) : ((m : ℤ)).fdiv (k : ℤ) = ((m / k : ℕ) : ℤ) :=
  (Int.ofNat_fdiv m k).symm

/-- C1 (amended): for `total_rows ≥ 1` and `page_size ≥ 1` the source
formula `(total_rows - 1) // page_size + 1` equals the spec's
`ceil(total_rows / page_size)` (characterized as the least page count
that covers all rows); the minimum-of-1 clause fails at `total_rows = 0`,
where the source computes 0 pages. -/
theorem claim_C1_amended (n ps : ℕ) (hn : 1 ≤ n) (hps : 1 ≤ ps) :
    total_pages n ps = ((specTotalPages n ps : ℕ) : ℤ)
    ∧ ((n : ℕ) : ℤ) ≤ total_pages n ps * ((ps : ℕ) : ℤ)
    ∧ (total_pages n ps - 1) * ((ps : ℕ) : ℤ) < ((n : ℕ) : ℤ) := by
  have hcast : ((n : ℤ) - 1) = (((n - 1 : ℕ) : ℕ) : ℤ) := by omega
  have hbridge : total_pages n ps = (((n - 1) / ps + 1 : ℕ) : ℤ) := by
    unfold total_pages
    rw [hcast, fdiv_cast]
    push_cast
    ring
  have hq1 : ((n - 1) / ps) * ps ≤ n - 1 := Nat.div_mul_le_self _ _
  have hq2 : n - 1 < ((n - 1) / ps + 1) * ps :=
    (Nat.div_lt_iff_lt_mul (by omega)).mp (Nat.lt_succ_self ((n - 1) / ps))
  have hspec : specTotalPages n ps = (n - 1) / ps + 1 := by
    unfold specTotalPages
    have h1 : n + ps - 1 = (n - 1) + ps := by omega
    rw [h1, Nat.add_div_right _ (by omega)]
    exact max_eq_right (Nat.le_add_left 1 _)
  refine ⟨by rw [hbridge, hspec], ?_, ?_⟩
  · rw [hbridge]
    have h2n : n ≤ ((n - 1) / ps + 1) * ps := by
      have h := Nat.succ_le_of_lt hq2
      rwa [Nat.succ_eq_add_one, Nat.sub_add_cancel hn] at h
    exact_mod_cast h2n
  · rw [hbridge]
    have h3n : ((n - 1) / ps) * ps < n := lt_of_le_of_lt hq1 (by omega)
    have hone : (((n - 1) / ps + 1 : ℕ) : ℤ) - 1 = (((n - 1) / ps : ℕ) : ℤ) := by
      rw [Nat.cast_add, Nat.cast_one]
      ring
    rw [hone]
    exact_mod_cast h3n

/-- Counterexample for C1 as stated: on an empty filtered set the source
formula computes 0 pages where the spec requires a minimum of 1. -/
theorem claim_C1_counterexample :
    total_pages 0 25 = 0 ∧ specTotalPages 0 25 = 1
    ∧ total_pages 0 25 ≠ ((specTotalPages 0 25 : ℕ) : ℤ) := by
  decide

/-- Witness for C1 (amended) at 3 rows and page size 25. -/
theorem claim_C1_witness :
    total_pages 3 25 = ((specTotalPages 3 25 : ℕ) : ℤ)
    ∧ ((3 : ℕ) : ℤ) ≤ total_pages 3 25 * ((25 : ℕ) : ℤ)
    ∧ (total_pages 3 25 - 1) * ((25 : ℕ) : ℤ) < ((3 : ℕ) : ℤ) :=
  claim_C1_amended 3 25 (by decide) (by decide)

/-! ### Normalization correspondence -/

/-- Composition of pointwise correspondences along a shared middle list. -/
theorem forall2_trans_comp {α β γ : Type} {R : α → β → Prop} {S : β → γ → Prop}
    {T : α → γ → Prop} (hT : ∀ a b c, R a b → S b c → T a c) :
    ∀ {l1 : List α} {l2 : List β} {l3 : List γ},
      List.Forall₂ R l1 l2 → List.Forall₂ S l2 l3 → List.Forall₂ T l1 l3 := by
  intro l1 l2 l3 h1
  induction h1 generalizing l3 with
  | nil =>
    intro h2
    cases h2
    exact List.Forall₂.nil
  | cons hab htail ih =>
    intro h2
    cases h2 with
    | cons hbc h2tail => exact List.Forall₂.cons (hT _ _ _ hab hbc) (ih h2tail)

/-- A successful `buildRow` satisfies the flattening correspondence. -/
theorem buildRow_ok {rec : RawRecord} {p : PreRow} (h : buildRow rec = .ok p) :
    preOk rec p := by
  unfold buildRow at h
  cases hn : numericSum (rec.properties.map InvoiceProperty.amount) with
  | error e =>
    rw [hn] at h
    exact absurd h (by simp)
  | ok pa =>
    rw [hn] at h
    injection h with h
    subst h
    exact ⟨hn, rfl, rfl, rfl, rfl, rfl, rfl, rfl, rfl⟩

/-- A successful flattening loop corresponds pointwise to its input. -/
theorem buildInvoices_ok : ∀ {recs : List RawRecord} {ps : List PreRow},
    buildInvoices recs = .ok ps → List.Forall₂ preOk recs ps := by
  intro recs
  induction recs with
  | nil =>
    intro ps h
    unfold buildInvoices at h
    injection h with h
    subst h
    exact List.Forall₂.nil
  | cons rec rest ih =>
    intro ps h
    unfold buildInvoices at h
    cases hb : buildRow rec with
    | error e =>
      rw [hb] at h
      exact absurd h (by simp)
    | ok p =>
      rw [hb] at h
      cases hr : buildInvoices rest with
      | error e =>
        rw [hr] at h
        exact absurd h (by simp)
      | ok ps2 =>
        rw [hr] at h
        injection h with h
        subst h
        exact List.Forall₂.cons (buildRow_ok hb) (ih hr)

/-- A successful date-parsing stage corresponds pointwise to its input. -/
theorem parseDates_ok : ∀ {ps : List PreRow} {rows : List NormalizedRow},
    parseDates ps = .ok rows → List.Forall₂ rowOfPre ps rows := by
  intro ps
  induction ps with
  | nil =>
    intro rows h
    unfold parseDates at h
    injection h with h
    subst h
    exact List.Forall₂.nil
  | cons p ps ih =>
    intro rows h
    unfold parseDates at h
    cases hd : parseDate p.invoiceDate with
    | none =>
      rw [hd] at h
      exact absurd h (by simp)
    | some d =>
      rw [hd] at h
      cases hr : parseDates ps with
      | error e =>
        rw [hr] at h
        exact absurd h (by simp)
      | ok rs =>
        rw [hr] at h
        injection h with h
        subst h
        exact List.Forall₂.cons ⟨hd, rfl, rfl, rfl, rfl, rfl, rfl, rfl, rfl⟩ (ih hr)

/-- The two stagewise correspondences compose into the normalization
contract. -/
theorem preOk_rowOfPre_recOk (rec : RawRecord) (p : PreRow) (row : NormalizedRow)
    (hR : preOk rec p) (hS : rowOfPre p row) : recOk rec row := by
  obtain ⟨r1, r2, r3, r4, r5, r6, r7, r8, r9⟩ := hR
  obtain ⟨s1, s2, s3, s4, s5, s6, s7, s8, s9⟩ := hS
  refine ⟨?_, ?_, ?_, ?_, ?_, ?_, ?_, ?_, ?_⟩
  · rw [s2]
    exact r1
  · rw [s3, r2]
  · intro hp
    constructor
    · have h0 := r1
      rw [hp] at h0
      simp only [List.map_nil] at h0
      have h1 : numericSum [] = Except.ok (0 : ℚ) := rfl
      rw [h1] at h0
      have h2 := Except.ok.inj h0
      rw [s2]
      exact h2.symm
    · rw [s3, r2, hp]
      rfl
  · rw [s4, r3]
  · rw [s5, r4]
  · rw [s6, r5]
  · rw [s7, r7]
  · rw [s8, r8]
  · rw [s9, r9]

/-- C2: a successful normalization returns exactly one row per record, in
input order, with `propertyAmount` the sum of that record's property
amounts (0 when the properties sequence is empty) and `propertyCount` the
number of properties (0 when empty), all scalar fields carried over. -/
theorem claim_C2_normalization (recs : List RawRecord) (rows : List NormalizedRow)
    (h : process_invoices recs = .ok rows) :
    rows.length = recs.length ∧ List.Forall₂ recOk recs rows := by
  unfold process_invoices at h
  cases hb : buildInvoices recs with
  | error e =>
    rw [hb] at h
    exact absurd h (by simp)
  | ok ps =>
    rw [hb] at h
    have h3 : List.Forall₂ recOk recs rows :=
      forall2_trans_comp preOk_rowOfPre_recOk (buildInvoices_ok hb) (parseDates_ok h)
    exact ⟨h3.length_eq.symm, h3⟩

/-- Witness for C2 on a concrete one-record input. -/
theorem claim_C2_witness :
    ([sampleRow] : List NormalizedRow).length = ([sampleRecord] : List RawRecord).length
    ∧ List.Forall₂ recOk [sampleRecord] [sampleRow] :=
  claim_C2_normalization [sampleRecord] [sampleRow] (by rfl)

/-! ### Load-time failure behaviour -/

/-- The flattening loop succeeds exactly when every record's property
amounts sum numerically. -/
theorem buildInvoices_ok_iff (recs : List RawRecord) :
    (∃ ps, buildInvoices recs = .ok ps)
      ↔ ∀ rec ∈ recs, ∃ q, numericSum (rec.properties.map InvoiceProperty.amount) = .ok q := by
  induction recs with
  | nil =>
    constructor
    · intro _ rec h
      exact absurd h (by simp)
    · intro _
      exact ⟨[], rfl⟩
  | cons rec rest ih =>
    constructor
    · rintro ⟨ps, h⟩
      unfold buildInvoices at h
      cases hb : buildRow rec with
      | error e =>
        rw [hb] at h
        exact absurd h (by simp)
      | ok p =>
        rw [hb] at h
        cases hr : buildInvoices rest with
        | error e =>
          rw [hr] at h
          exact absurd h (by simp)
        | ok ps2 =>
          intro r hmem
          rcases List.mem_cons.mp hmem with h1 | h1
          · subst h1
            unfold buildRow at hb
            cases hn : numericSum (r.properties.map InvoiceProperty.amount) with
            | error e =>
              rw [hn] at hb
              exact absurd hb (by simp)
            | ok q => exact ⟨q, rfl⟩
          · exact (ih.mp ⟨ps2, hr⟩) r h1
    · intro hall
      obtain ⟨ps2, hps2⟩ := ih.mpr fun r h => hall r (List.mem_cons_of_mem _ h)
      obtain ⟨q, hq⟩ := hall rec (List.mem_cons_self _ _)
      cases hres : buildInvoices (rec :: rest) with
      | error e =>
        exfalso
        unfold buildInvoices buildRow at hres
        rw [hq, hps2] at hres
        exact absurd hres (by simp)
      | ok ps3 => exact ⟨ps3, rfl⟩

/-- The date-parsing stage succeeds exactly when every date string
parses. -/
theorem parseDates_ok_iff (ps : List PreRow) :
    (∃ rows, parseDates ps = .ok rows)
      ↔ ∀ p ∈ ps, (parseDate p.invoiceDate).isSome = true := by
  induction ps with
  | nil =>
    constructor
    · intro _ p h
      exact absurd h (by simp)
    · intro _
      exact ⟨[], rfl⟩
  | cons p ps ih =>
    constructor
    · rintro ⟨rows, h⟩
      unfold parseDates at h
      cases hd : parseDate p.invoiceDate with
      | none =>
        rw [hd] at h
        exact absurd h (by simp)
      | some d =>
        rw [hd] at h
        cases hr : parseDates ps with
        | error e =>
          rw [hr] at h
          exact absurd h (by simp)
        | ok rs =>
          intro r hmem
          rcases List.mem_cons.mp hmem with h1 | h1
          · subst h1
            rw [hd]
            rfl
          · exact (ih.mp ⟨rs, hr⟩) r h1
    · intro hall
      obtain ⟨rs, hrs⟩ := ih.mpr fun r h => hall r (List.mem_cons_of_mem _ h)
      have hp := hall p (List.mem_cons_self _ _)
      cases hd : parseDate p.invoiceDate with
      | none =>
        rw [hd] at hp
        exact absurd hp (by simp)
      | some d =>
        cases hres : parseDates (p :: ps) with
        | error e =>
          exfalso
          unfold parseDates at hres
          rw [hd, hrs] at hres
          exact absurd hres (by simp)
        | ok rows => exact ⟨rows, rfl⟩

/-- A pointwise correspondence transfers universally quantified membership
facts between the two lists. -/
theorem forall2_mem_iff {α β : Type} {R : α → β → Prop} {P : α → Prop} {Q : β → Prop}
    (hPQ : ∀ a b, R a b → (P a ↔ Q b)) :
    ∀ {l1 : List α} {l2 : List β}, List.Forall₂ R l1 l2 →
      ((∀ a ∈ l1, P a) ↔ ∀ b ∈ l2, Q b) := by
  intro l1 l2 h
  induction h with
  | nil => simp
  | cons hab htail ih =>
    rw [List.forall_mem_cons, List.forall_mem_cons]
    exact and_congr (hPQ _ _ hab) ih

/-- C3 (amended): normalization succeeds exactly when every record's date
parses and every property amount is numeric; otherwise the first
underlying exception propagates and no rows at all are produced.  The
escaping error is the library/runtime one — `claim_C3_counterexample`
shows it carries no record identifier and no dedicated
`MalformedRecordError` type exists. -/
theorem claim_C3_amended (recs : List RawRecord) :
    (∃ rows, process_invoices recs = .ok rows)
      ↔ ∀ rec ∈ recs,
          (∃ q, numericSum (rec.properties.map InvoiceProperty.amount) = .ok q)
          ∧ (parseDate rec.invoiceDate).isSome = true := by
  constructor
  · rintro ⟨rows, h⟩
    unfold process_invoices at h
    cases hb : buildInvoices recs with
    | error e =>
      rw [hb] at h
      exact absurd h (by simp)
    | ok ps =>
      rw [hb] at h
      intro rec hrec
      refine ⟨(buildInvoices_ok_iff recs).mp ⟨ps, hb⟩ rec hrec, ?_⟩
      have hdates := (parseDates_ok_iff ps).mp ⟨rows, h⟩
      have htrans : (∀ a ∈ recs, (parseDate a.invoiceDate).isSome = true)
          ↔ ∀ b ∈ ps, (parseDate b.invoiceDate).isSome = true :=
        forall2_mem_iff
          (fun a b hab => by rw [hab.2.2.2.2.2.1])
          (buildInvoices_ok hb)
      exact htrans.mpr hdates rec hrec
  · intro hall
    obtain ⟨ps, hps⟩ := (buildInvoices_ok_iff recs).mpr fun rec h => (hall rec h).1
    have h1 := buildInvoices_ok hps
    have hdates : ∀ p ∈ ps, (parseDate p.invoiceDate).isSome = true := by
      refine (forall2_mem_iff
        (fun (a : RawRecord) (b : PreRow) (hab : preOk a b) => ?_) h1).mp
        fun rec h => (hall rec h).2
      rw [hab.2.2.2.2.2.1]
    obtain ⟨rows, hrows⟩ := (parseDates_ok_iff ps).mpr hdates
    refine ⟨rows, ?_⟩
    unfold process_invoices
    rw [hps]
    exact hrows

/-- Counterexample for C3 as stated: records that differ only in their
record identifier produce the very same escaping error, for a bad date as
for a non-numeric amount — so the error cannot be naming the record
identifier, and it is a plain library/runtime error rather than a
`MalformedRecordError`. -/
theorem claim_C3_counterexample :
    process_invoices [badDateRecordA] = .error (.dateParseError "garbage")
    ∧ process_invoices [badDateRecordB] = .error (.dateParseError "garbage")
    ∧ badDateRecordA.internalReference ≠ badDateRecordB.internalReference
    ∧ process_invoices [badAmountRecordC] = .error .typeError
    ∧ process_invoices [badAmountRecordD] = .error .typeError
    ∧ badAmountRecordC.internalReference ≠ badAmountRecordD.internalReference :=
  ⟨rfl, rfl, by decide, rfl, rfl, by decide⟩
